import Mathlib

/-!
Shallow embedding of the nREPL-style protocol client in `repl.py`:
the session registry, sessions with operation-id stamping, the client's
send/receive worker loops, response dispatch, session cloning and halt.

Python dictionaries are modelled as association lists with
replace-or-append insertion; Python `None` is the `Val.none` value, so
`dict.get(key)` returning `None` for a missing key is `Msg.get`
returning `Val.none`. Queues are lists (front = oldest element), with
the `None` sentinel modelled by `Option.none` entries. The background
worker loops are modelled as functions over a finite trace of the
events each loop observes (queue items for the send loop; stop-flag
observations, successful reads and read errors for the receive loop).
-/

set_option autoImplicit false

/-- A Python value of the shapes the client manipulates: `None`, a
string, an int (operation ids), or a list of status strings (the
`status` field of a response). -/
inductive Val where
  | none : Val
  | str : String → Val
  | num : Nat → Val
  | list : List String → Val
deriving DecidableEq, Repr

/-- A Python dict with string keys (an operation or a response message),
modelled as an association list in insertion order. -/
abbrev Msg : Type := List (String × Val)

/-- Lookup in an association list (Python `dict.get(k)` without default):
returns the value of the first matching key, if any. -/
def lookupT {κ α : Type} [DecidableEq κ] : List (κ × α) → κ → Option α
  | [], _ => Option.none
  | (k', v) :: rest, k => if k' = k then some v else lookupT rest k

/-- Python `d[k] = v`: replace the value at an existing key in place,
otherwise append the new binding. -/
def insertT {κ α : Type} [DecidableEq κ] : List (κ × α) → κ → α → List (κ × α)
  | [], k, v => [(k, v)]
  | (k', v') :: rest, k, v =>
      if k' = k then (k', v) :: rest else (k', v') :: insertT rest k v

/-- Python `d.pop(k, None)`: remove the binding for `k` (a no-op when the
key is absent). -/
def popT {κ α : Type} [DecidableEq κ] : List (κ × α) → κ → List (κ × α)
  | [], _ => []
  | (k', v) :: rest, k => if k' = k then popT rest k else (k', v) :: popT rest k

/-- Python `response.get(k)`: the stored value, or `None` when absent. -/
def Msg.get (m : Msg) (k : String) : Val :=
  (lookupT m k).getD Val.none

/-- Python `d[k] = v` on a message. -/
def Msg.set (m : Msg) (k : String) (v : Val) : Msg :=
  insertT m k v

/-- A `Session` as in `repl.py`: the remote-assigned id and the
operation-id counter `op_count` (the lock that guards the counter is
invisible in this sequential model). The class-level `handlers` and
`errors` tables live in `ClientState`, shared across sessions exactly as
class attributes are. -/
structure Session where
  id : Val
  opCount : Nat
deriving DecidableEq, Repr

/-- `Session.op_id`: increment `op_count` under the lock and return it. -/
def Session.op_id (s : Session) : Session × Nat :=
  ({ s with opCount := s.opCount + 1 }, s.opCount + 1)

/-- `Session.op`: stamp an outbound operation with the session id, a fresh
operation id, and the two fixed middleware flags. -/
def Session.op (s : Session) (d : Msg) : Session × Msg :=
  let d := d.set "session" s.id
  let p := s.op_id
  let d := d.set "id" (Val.num p.2)
  let d := d.set "nrepl.middleware.caught/print?" (Val.str "true")
  let d := d.set "nrepl.middleware.print/stream?" (Val.str "true")
  (p.1, d)

/-- A registered response handler: either the default
`client.output.put` (route to the generic receive queue), or a
user-supplied callback, which either returns normally or raises the
given exception when invoked. -/
inductive Handler where
  | outputPut : Handler
  | custom : Option String → Handler
deriving DecidableEq, Repr

/-- The `SessionRegistry` class attributes: `by_id` maps session ids to
sessions; `by_owner` maps a window id to a dict from owner to session. -/
structure Registry where
  by_id : List (Val × Session)
  by_owner : List (Val × List (Val × Session))
deriving DecidableEq, Repr

/-- `SessionRegistry.get_by_id`. -/
def Registry.get_by_id (r : Registry) (id : Val) : Option Session :=
  lookupT r.by_id id

/-- `SessionRegistry.get_by_owner`: an absent or empty (falsy) per-window
dict yields `None`. -/
def Registry.get_by_owner (r : Registry) (window_id owner : Val) : Option Session :=
  match lookupT r.by_owner window_id with
  | Option.none => Option.none
  | some by_window => if by_window = [] then Option.none else lookupT by_window owner

/-- `SessionRegistry.register`: insert into both indexes; the defaultdict
supplies an empty per-window dict on first use. -/
def Registry.register (r : Registry) (window_id owner : Val) (sess : Session) : Registry :=
  { by_id := insertT r.by_id sess.id sess,
    by_owner := insertT r.by_owner window_id
      (insertT ((lookupT r.by_owner window_id).getD []) owner sess) }

/-- `SessionRegistry.deregister`: iterate the window's sessions, popping
each from `by_id`, then pop the window itself. When the window id was
never registered, `by_owner.get(window_id)` is `None` and iterating it
raises `AttributeError`. -/
def Registry.deregister (r : Registry) (window_id : Val) : Except String Registry :=
  match lookupT r.by_owner window_id with
  | Option.none => Except.error "AttributeError: NoneType object has no attribute items"
  | some by_window =>
      Except.ok
        { by_id := by_window.foldl (fun acc p => popT acc p.2.id) r.by_id,
          by_owner := popT r.by_owner window_id }

/-- The mutable state a `Client` touches: the process-wide session
registry, the class-level `Session.handlers` and `Session.errors` tables
(keyed by operation id), the outbound `input` queue and inbound `output`
queue (front = oldest; `Option.none` entries are the `None` sentinel),
the `stop_event` flag, and whether the socket is still connected. -/
structure ClientState where
  registry : Registry
  handlers : List (Val × Handler)
  errors : List (Val × Msg)
  input : List (Option Msg)
  output : List (Option Msg)
  stopSet : Bool
  socketOpen : Bool
deriving DecidableEq, Repr

/-- `Session.send`: stamp the operation, register the handler (defaulting
to `client.output.put`) under the fresh operation id, and enqueue the
stamped operation on the client's input queue. -/
def Session.send (s : Session) (st : ClientState) (d : Msg) (handler : Option Handler) :
    Session × ClientState :=
  let p := s.op d
  let h := handler.getD Handler.outputPut
  (p.1,
   { st with handlers := insertT st.handlers (Msg.get p.2 "id") h,
             input := st.input ++ [some p.2] })

/-- Python truthiness of a `Val` (`if id:`): `None`, `0`, the empty
string and the empty list are falsy. -/
def Val.truthy : Val → Bool
  | Val.none => false
  | Val.str s => !s.isEmpty
  | Val.num n => n != 0
  | Val.list xs => !xs.isEmpty

/-- `Session.denounce`: record an errored response under its operation id
when the response carries a truthy id. -/
def Session.denounce (st : ClientState) (response : Msg) : ClientState :=
  let id := Msg.get response "id"
  if id.truthy then { st with errors := insertT st.errors id response } else st

/-- `Session.is_denounced`: whether the response's id has been denounced. -/
def Session.is_denounced (st : ClientState) (response : Msg) : Bool :=
  (lookupT st.errors (Msg.get response "id")).isSome

/-- Invoke a handler on a response: the default handler appends the
response to the generic receive queue and returns normally; a custom
callback leaves the client state alone and returns normally or raises. -/
def runHandler (st : ClientState) (h : Handler) (response : Msg) :
    ClientState × Except String Unit :=
  match h with
  | Handler.outputPut => ({ st with output := st.output ++ [some response] }, Except.ok ())
  | Handler.custom Option.none => (st, Except.ok ())
  | Handler.custom (some e) => (st, Except.error e)

/-- `Client.handle`: look up the response's session in the registry;
choose the registered handler for its id (falling back to
`self.output.put` when the session is unknown or no handler is
registered); invoke it; then, in a `finally` block, when the session is
registered and the status is exactly `[done]`, pop the handler and any
denouncement for that id. The `Except` result is the exception the
handler raised, if any, which propagates to the caller. -/
def Client.handle (st : ClientState) (response : Msg) : ClientState × Except String Unit :=
  let session_id := Msg.get response "session"
  let item_id := Msg.get response "id"
  let session := Registry.get_by_id st.registry session_id
  let handler :=
    match session with
    | some _ => (lookupT st.handlers item_id).getD Handler.outputPut
    | Option.none => Handler.outputPut
  let p := runHandler st handler response
  let st' :=
    if session.isSome ∧ Msg.get response "status" = Val.list ["done"]
    then { p.1 with handlers := popT p.1.handlers item_id,
                    errors := popT p.1.errors item_id }
    else p.1
  (st', p.2)

/-- `Client.send_loop`, as a function from the queue's contents to the
sequence of messages written to the wire: each item before the `None`
poison pill is written via `bencode.write` in FIFO order; taking the
pill breaks the loop; an exhausted list models the loop blocking on
`queue.get` with nothing further written. -/
def send_loop : List (Option Msg) → List Msg
  | [] => []
  | Option.none :: _ => []
  | some m :: rest => m :: send_loop rest

/-- One observation of the receive loop: the stop flag reads true, or
`bencode.read` yields a response, or `bencode.read` raises `OSError`. -/
inductive RecvEvent where
  | stop : RecvEvent
  | read : Msg → RecvEvent
  | readErr : String → RecvEvent
deriving DecidableEq, Repr

/-- An externally visible action of the receive worker, in order. -/
inductive Effect where
  | handled : Msg → Effect
  | putOutput : Option Msg → Effect
  | disconnected : Effect
deriving DecidableEq, Repr

/-- The `while not self.stop_event.is_set()` body of `Client.recv_loop`:
process observations until the stop flag is seen (normal exit), a read
raises `OSError` (caught and logged), or `handle` raises (uncaught by
the `except OSError` clause). `Option.none` means the trace ended with
the loop still blocked in `bencode.read`. -/
def recv_body : ClientState → List RecvEvent → Option (ClientState × List Effect)
  | _, [] => Option.none
  | st, RecvEvent.stop :: _ => some (st, [])
  | st, RecvEvent.readErr _ :: _ => some (st, [])
  | st, RecvEvent.read r :: rest =>
      let p := Client.handle st r
      match p.2 with
      | Except.error _ => some (p.1, [Effect.handled r])
      | Except.ok _ =>
          (recv_body p.1 rest).map (fun q => (q.1, Effect.handled r :: q.2))

/-- `Client.recv_loop`: run the loop body, then the `finally` block:
`output.put_nowait(None)` followed by `disconnect()`, in that order,
on every exit path. -/
def recv_loop (st : ClientState) (evs : List RecvEvent) :
    Option (ClientState × List Effect) :=
  (recv_body st evs).map fun q =>
    ({ q.1 with output := q.1.output ++ [Option.none], socketOpen := false },
     q.2 ++ [Effect.putOutput Option.none, Effect.disconnected])

/-- The result of `Client.clone_session`: blocked on an empty receive
queue, an `AttributeError` from calling `.get` on the `None` sentinel,
or the new session together with the updated client state. -/
inductive CloneResult where
  | blocked : CloneResult
  | sentinelError : CloneResult
  | ok : ClientState → Session → CloneResult
deriving DecidableEq, Repr

/-- `Client.clone_session`: enqueue the bare `{'op': 'clone'}` operation
(no session id, no operation id), block reading one value from the
generic receive queue, and build a `Session` from its `new-session`
field (a fresh session starts with `op_count = 0`). -/
def Client.clone_session (st : ClientState) : CloneResult :=
  let st := { st with input := st.input ++ [some [("op", Val.str "clone")]] }
  match st.output with
  | [] => CloneResult.blocked
  | Option.none :: _ => CloneResult.sentinelError
  | some m :: rest =>
      CloneResult.ok { st with output := rest } { id := Msg.get m "new-session", opCount := 0 }

/-- `Client.halt`: feed the poison pill to the input queue and set the
stop event. -/
def Client.halt (st : ClientState) : ClientState :=
  { st with input := st.input ++ [Option.none], stopSet := true }

/-- Fold `Session.send` (with default handlers) over a list of outbound
operations, as a caller issuing a sequence of sends on one session. -/
def sendAll : Session → ClientState → List Msg → Session × ClientState
  | s, st, [] => (s, st)
  | s, st, d :: ds =>
      let p := s.send st d Option.none
      sendAll p.1 p.2 ds

/-- The stamped operations produced by a sequence of sends on a session. -/
def stampList : Session → List Msg → List Msg
  | _, [] => []
  | s, d :: ds => (s.op d).2 :: stampList (s.op d).1 ds

/-- The operation ids assigned by a sequence of sends on a session. -/
def stampIds : Session → List Msg → List Nat
  | _, [] => []
  | s, d :: ds => (s.op d).1.opCount :: stampIds (s.op d).1 ds

/-- Whether a response's status contains both `done` and
`session-closed` (the session-close handshake acknowledgment). -/
def statusDoneSessionClosed (r : Msg) : Bool :=
  match Msg.get r "status" with
  | Val.list xs => xs.contains "done" && xs.contains "session-closed"
  | _ => false

/-! Association-list lemmas. -/

theorem lookupT_insertT_self {κ α : Type} [DecidableEq κ] (xs : List (κ × α)) (k : κ) (v : α) :
    lookupT (insertT xs k v) k = some v := by
  induction xs with
  | nil => simp [insertT, lookupT]
  | cons p rest ih =>
      obtain ⟨k', v'⟩ := p
      by_cases h : k' = k
      · simp [insertT, lookupT, h]
      · simp [insertT, lookupT, h, ih]

theorem lookupT_insertT_ne {κ α : Type} [DecidableEq κ] (xs : List (κ × α)) (k j : κ) (v : α)
    (h : j ≠ k) : lookupT (insertT xs k v) j = lookupT xs j := by
  induction xs with
  | nil => simp [insertT, lookupT, Ne.symm h]
  | cons p rest ih =>
      obtain ⟨k', v'⟩ := p
      by_cases hk : k' = k
      · subst hk
        simp [insertT, lookupT, Ne.symm h]
      · simp only [insertT, if_neg hk]
        by_cases hj : k' = j
        · simp [lookupT, hj]
        · simp [lookupT, hj, ih]

theorem lookupT_popT_self {κ α : Type} [DecidableEq κ] (xs : List (κ × α)) (k : κ) :
    lookupT (popT xs k) k = Option.none := by
  induction xs with
  | nil => simp [popT, lookupT]
  | cons p rest ih =>
      obtain ⟨k', v'⟩ := p
      by_cases h : k' = k
      · simp [popT, h, ih]
      · simp [popT, lookupT, h, ih]

theorem lookupT_popT_of_none {κ α : Type} [DecidableEq κ] (xs : List (κ × α)) (k j : κ)
    (h : lookupT xs j = Option.none) : lookupT (popT xs k) j = Option.none := by
  induction xs with
  | nil => simp [popT, lookupT]
  | cons p rest ih =>
      obtain ⟨k', v'⟩ := p
      by_cases hj : k' = j
      · subst hj
        simp [lookupT] at h
      · simp only [lookupT, if_neg hj] at h
        by_cases hk : k' = k
        · simp [popT, hk, ih h]
        · simp [popT, lookupT, hk, hj, ih h]

theorem popT_of_lookupT_none {κ α : Type} [DecidableEq κ] (xs : List (κ × α)) (k : κ)
    (h : lookupT xs k = Option.none) : popT xs k = xs := by
  induction xs with
  | nil => simp [popT]
  | cons p rest ih =>
      obtain ⟨k', v'⟩ := p
      by_cases hk : k' = k
      · subst hk
        simp [lookupT] at h
      · simp only [lookupT, if_neg hk] at h
        simp [popT, hk, ih h]

theorem mem_insertT_self {κ α : Type} [DecidableEq κ] (xs : List (κ × α)) (k : κ) (v : α) :
    (k, v) ∈ insertT xs k v := by
  induction xs with
  | nil => simp [insertT]
  | cons p rest ih =>
      obtain ⟨k', v'⟩ := p
      by_cases h : k' = k
      · subst h
        simp [insertT]
      · simp [insertT, h, ih]

theorem lookupT_foldl_popT_of_none (l : List (Val × Session)) (acc : List (Val × Session))
    (k : Val) (h : lookupT acc k = Option.none) :
    lookupT (l.foldl (fun a p => popT a p.2.id) acc) k = Option.none := by
  induction l generalizing acc with
  | nil => exact h
  | cons q rest ih => exact ih _ (lookupT_popT_of_none acc q.2.id k h)

theorem lookupT_foldl_popT (l : List (Val × Session)) (acc : List (Val × Session)) (k : Val)
    (h : ∃ p ∈ l, p.2.id = k) :
    lookupT (l.foldl (fun a p => popT a p.2.id) acc) k = Option.none := by
  induction l generalizing acc with
  | nil =>
      rcases h with ⟨p, hp, _⟩
      cases hp
  | cons q rest ih =>
      rcases h with ⟨p, hp, hid⟩
      rcases List.mem_cons.mp hp with rfl | hmem
      · exact lookupT_foldl_popT_of_none rest _ k (by rw [← hid]; exact lookupT_popT_self _ _)
      · exact ih (popT acc q.2.id) ⟨p, hmem, hid⟩

/-! Operation stamping lemmas. -/

theorem Session.op_fst (s : Session) (d : Msg) :
    (s.op d).1 = { s with opCount := s.opCount + 1 } := rfl

theorem Session.op_get_id (s : Session) (d : Msg) :
    Msg.get (s.op d).2 "id" = Val.num (s.opCount + 1) := by
  simp only [Session.op, Session.op_id, Msg.set, Msg.get]
  rw [lookupT_insertT_ne _ _ _ _ (by decide), lookupT_insertT_ne _ _ _ _ (by decide),
    lookupT_insertT_self]
  rfl

theorem stampIds_strict (ds : List Msg) (s : Session) :
    List.Pairwise (fun a b => a < b) (stampIds s ds) ∧
      ∀ x ∈ stampIds s ds, s.opCount < x := by
  induction ds generalizing s with
  | nil => simp [stampIds]
  | cons d ds ih =>
      have h := ih (s.op d).1
      have hop : (s.op d).1.opCount = s.opCount + 1 := by rw [Session.op_fst]
      refine ⟨List.Pairwise.cons (fun b hb => h.2 b hb) h.1, ?_⟩
      intro x hx
      rcases List.mem_cons.mp hx with rfl | hx
      · omega
      · have := h.2 x hx
        omega

theorem sendAll_input (ds : List Msg) (s : Session) (st : ClientState) :
    (sendAll s st ds).2.input = st.input ++ (stampList s ds).map some := by
  induction ds generalizing s st with
  | nil => simp [sendAll, stampList]
  | cons d ds ih =>
      simp [sendAll, stampList, Session.send, ih]

theorem stampList_ids (ds : List Msg) (s : Session) :
    (stampList s ds).map (fun d => Msg.get d "id") = (stampIds s ds).map Val.num := by
  induction ds generalizing s with
  | nil => rfl
  | cons d ds ih =>
      simp only [stampList, stampIds, List.map_cons, Session.op_get_id, Session.op_fst, ih]

/-! Send-loop lemmas. -/

theorem send_loop_map_some (before : List Msg) : send_loop (before.map some) = before := by
  induction before with
  | nil => rfl
  | cons m rest ih => simp [send_loop, ih]

theorem send_loop_after_none (xs ys zs : List (Option Msg)) :
    send_loop (xs ++ Option.none :: ys) = send_loop (xs ++ Option.none :: zs) := by
  induction xs with
  | nil => rfl
  | cons x xs ih => cases x <;> simp [send_loop, ih]

/-! Dispatch (`Client.handle`) lemmas. -/

theorem Client.handle_handlers (st : ClientState) (r : Msg) :
    (Client.handle st r).1.handlers =
      if (Registry.get_by_id st.registry (Msg.get r "session")).isSome
          ∧ Msg.get r "status" = Val.list ["done"]
      then popT st.handlers (Msg.get r "id") else st.handlers := by
  unfold Client.handle
  cases hs : Registry.get_by_id st.registry (Msg.get r "session") with
  | none => cases hd : lookupT st.handlers (Msg.get r "id") <;> simp [runHandler, hs]
  | some sess =>
      cases hd : (lookupT st.handlers (Msg.get r "id")).getD Handler.outputPut with
      | outputPut =>
          simp only [runHandler, hs, hd, Option.isSome_some, true_and]
          split <;> rfl
      | custom o =>
          cases o <;>
            (simp only [runHandler, hs, hd, Option.isSome_some, true_and]; split <;> rfl)

theorem Client.handle_errors (st : ClientState) (r : Msg) :
    (Client.handle st r).1.errors =
      if (Registry.get_by_id st.registry (Msg.get r "session")).isSome
          ∧ Msg.get r "status" = Val.list ["done"]
      then popT st.errors (Msg.get r "id") else st.errors := by
  unfold Client.handle
  cases hs : Registry.get_by_id st.registry (Msg.get r "session") with
  | none => cases hd : lookupT st.handlers (Msg.get r "id") <;> simp [runHandler, hs]
  | some sess =>
      cases hd : (lookupT st.handlers (Msg.get r "id")).getD Handler.outputPut with
      | outputPut =>
          simp only [runHandler, hs, hd, Option.isSome_some, true_and]
          split <;> rfl
      | custom o =>
          cases o <;>
            (simp only [runHandler, hs, hd, Option.isSome_some, true_and]; split <;> rfl)

theorem Client.handle_output_cases (st : ClientState) (r : Msg) :
    (Client.handle st r).1.output = st.output ∨
      (Client.handle st r).1.output = st.output ++ [some r] := by
  unfold Client.handle
  cases hs : Registry.get_by_id st.registry (Msg.get r "session") with
  | none => cases hd : lookupT st.handlers (Msg.get r "id") <;> simp [runHandler, hs]
  | some sess =>
      cases hd : (lookupT st.handlers (Msg.get r "id")).getD Handler.outputPut with
      | outputPut =>
          simp only [runHandler, hs, hd]
          split <;> exact Or.inr rfl
      | custom o =>
          cases o <;> (simp only [runHandler, hs, hd]; split <;> exact Or.inl rfl)

theorem Client.handle_socketOpen (st : ClientState) (r : Msg) :
    (Client.handle st r).1.socketOpen = st.socketOpen := by
  unfold Client.handle
  cases hs : Registry.get_by_id st.registry (Msg.get r "session") with
  | none => cases hd : lookupT st.handlers (Msg.get r "id") <;> simp [runHandler, hs]
  | some sess =>
      cases hd : (lookupT st.handlers (Msg.get r "id")).getD Handler.outputPut with
      | outputPut =>
          simp only [runHandler, hs, hd, Option.isSome_some, true_and]
          split <;> rfl
      | custom o =>
          cases o <;>
            (simp only [runHandler, hs, hd, Option.isSome_some, true_and]; split <;> rfl)

/-! Receive-loop lemmas. -/

theorem recv_body_spec (evs : List RecvEvent) (st st2 : ClientState) (log : List Effect)
    (h : recv_body st evs = some (st2, log)) :
    (∃ ms : List Msg, st2.output = st.output ++ ms.map some) ∧
      (∀ e ∈ log, ∃ r, e = Effect.handled r) ∧
      st2.socketOpen = st.socketOpen := by
  induction evs generalizing st log with
  | nil => cases h
  | cons ev rest ih =>
      cases ev with
      | stop =>
          simp only [recv_body, Option.some.injEq, Prod.mk.injEq] at h
          obtain ⟨rfl, rfl⟩ := h
          exact ⟨⟨[], by simp⟩, by simp, rfl⟩
      | readErr e =>
          simp only [recv_body, Option.some.injEq, Prod.mk.injEq] at h
          obtain ⟨rfl, rfl⟩ := h
          exact ⟨⟨[], by simp⟩, by simp, rfl⟩
      | read r =>
          simp only [recv_body] at h
          cases hr : (Client.handle st r).2 with
          | error e =>
              rw [hr] at h
              simp only [Option.some.injEq, Prod.mk.injEq] at h
              obtain ⟨rfl, rfl⟩ := h
              refine ⟨?_, ?_, Client.handle_socketOpen st r⟩
              · rcases Client.handle_output_cases st r with ho | ho
                · exact ⟨[], by simp [ho]⟩
                · exact ⟨[r], by simp [ho]⟩
              · intro e he
                simp at he
                exact ⟨r, he⟩
          | ok _ =>
              rw [hr] at h
              rcases Option.map_eq_some'.mp h with ⟨q, hq, hpair⟩
              injection hpair with h1 h2
              subst h1
              subst h2
              obtain ⟨⟨ms, hms⟩, hlog, hsock⟩ := ih (Client.handle st r).1 q.2 hq
              refine ⟨?_, ?_, hsock.trans (Client.handle_socketOpen st r)⟩
              · rcases Client.handle_output_cases st r with ho | ho
                · exact ⟨ms, by rw [hms, ho]⟩
                · exact ⟨r :: ms, by rw [hms, ho]; simp⟩
              · intro e he
                rcases List.mem_cons.mp he with rfl | he
                · exact ⟨r, rfl⟩
                · exact hlog e he

theorem insertT_ne_nil {κ α : Type} [DecidableEq κ] (xs : List (κ × α)) (k : κ) (v : α) :
    insertT xs k v ≠ [] := by
  cases xs with
  | nil => simp [insertT]
  | cons p rest =>
      obtain ⟨k', v'⟩ := p
      by_cases h : k' = k <;> simp [insertT, h]

/-! Concrete fixtures used by witnesses and counterexamples. -/

/-- An empty session registry. -/
def regEmpty : Registry := { by_id := [], by_owner := [] }

/-- A freshly connected client with nothing registered or queued. -/
def stEmpty : ClientState :=
  { registry := regEmpty, handlers := [], errors := [], input := [], output := [],
    stopSet := false, socketOpen := true }

/-- A session with remote id `s1` and no operations issued yet. -/
def sessOne : Session := { id := Val.str "s1", opCount := 0 }

/-- A registry holding `sessOne` under window 7, owner `o`. -/
def regOne : Registry := Registry.register regEmpty (Val.num 7) (Val.str "o") sessOne

/-- A terminal response for operation 1 of session `s1`. -/
def respDone : Msg :=
  [("session", Val.str "s1"), ("id", Val.num 1), ("status", Val.list ["done"])]

/-- Client state with a pending handler and a denouncement for operation 1. -/
def stTables : ClientState :=
  { registry := regOne, handlers := [(Val.num 1, Handler.custom Option.none)],
    errors := [(Val.num 1, respDone)], input := [], output := [],
    stopSet := false, socketOpen := true }

/-- Client state whose session is registered but whose tables are empty
(after the handler for operation 1 was already cleaned up). -/
def stNoTables : ClientState :=
  { registry := regOne, handlers := [], errors := [], input := [], output := [],
    stopSet := false, socketOpen := true }

/-- Client state whose registered handler for operation 1 raises `boom`. -/
def stRaise : ClientState :=
  { registry := regOne, handlers := [(Val.num 1, Handler.custom (some "boom"))],
    errors := [(Val.num 1, respDone)], input := [], output := [],
    stopSet := false, socketOpen := true }

/-- A session-close acknowledgment response. -/
def respClosed : Msg := [("status", Val.list ["done", "session-closed"])]

/-- An unrelated follow-up response. -/
def respNext : Msg := [("value", Val.str "x")]

/-- C8: `register(scope, owner, session)` makes the session retrievable
via `get_by_owner(scope, owner)` and via `get_by_id(session.id)`, and
`deregister(scope)` then removes it from both lookups. -/
theorem registry_roundtrip (reg : Registry) (scope owner : Val) (sess : Session) :
    Registry.get_by_owner (Registry.register reg scope owner sess) scope owner = some sess ∧
    Registry.get_by_id (Registry.register reg scope owner sess) sess.id = some sess ∧
    ∃ regAfter,
      Registry.deregister (Registry.register reg scope owner sess) scope = Except.ok regAfter ∧
      Registry.get_by_id regAfter sess.id = Option.none ∧
      Registry.get_by_owner regAfter scope owner = Option.none := by
  have hw : lookupT (Registry.register reg scope owner sess).by_owner scope =
      some (insertT ((lookupT reg.by_owner scope).getD []) owner sess) := by
    unfold Registry.register
    exact lookupT_insertT_self _ _ _
  refine ⟨?_, ?_, ?_⟩
  · unfold Registry.get_by_owner
    rw [hw]
    show (if insertT ((lookupT reg.by_owner scope).getD []) owner sess = [] then Option.none
      else lookupT (insertT ((lookupT reg.by_owner scope).getD []) owner sess) owner) = some sess
    rw [if_neg (insertT_ne_nil _ _ _)]
    exact lookupT_insertT_self _ _ _
  · unfold Registry.get_by_id Registry.register
    exact lookupT_insertT_self _ _ _
  · unfold Registry.deregister
    rw [hw]
    refine ⟨_, rfl, ?_, ?_⟩
    · unfold Registry.get_by_id
      exact lookupT_foldl_popT _ _ _ ⟨(owner, sess), mem_insertT_self _ _ _, rfl⟩
    · unfold Registry.get_by_owner
      rw [lookupT_popT_self]

/-- C10: `deregister(scope)` on a scope that was never registered finds
`None` in the owner index and raises `AttributeError` when iterating it;
it succeeds whenever the scope has a (necessarily nonempty) entry. -/
theorem deregister_missing_scope_raises (reg : Registry) (scope : Val) :
    (lookupT reg.by_owner scope = Option.none →
      Registry.deregister reg scope =
        Except.error "AttributeError: NoneType object has no attribute items") ∧
    (∀ w, lookupT reg.by_owner scope = some w →
      ∃ regAfter, Registry.deregister reg scope = Except.ok regAfter) := by
  constructor
  · intro h
    unfold Registry.deregister
    rw [h]
  · intro w h
    unfold Registry.deregister
    rw [h]
    exact ⟨_, rfl⟩

/-- Witness for C10: deregistering the never-registered window 9 raises;
deregistering window 7 of `regOne` succeeds. -/
theorem deregister_missing_scope_raises_witness :
    (lookupT regEmpty.by_owner (Val.num 9) = Option.none ∧
      Registry.deregister regEmpty (Val.num 9) =
        Except.error "AttributeError: NoneType object has no attribute items") ∧
    (lookupT regOne.by_owner (Val.num 7) =
        some [(Val.str "o", sessOne)] ∧
      ∃ regAfter, Registry.deregister regOne (Val.num 7) = Except.ok regAfter) :=
  ⟨⟨rfl, (deregister_missing_scope_raises regEmpty (Val.num 9)).1 rfl⟩,
   ⟨rfl, (deregister_missing_scope_raises regOne (Val.num 7)).2 _ rfl⟩⟩

/-- C2: a sequence of two or more sends on one session enqueues the
stamped operations in order, and the stamped operation ids are strictly
increasing, hence pairwise distinct and never reused. -/
theorem sendAll_op_ids_strictly_increasing (s : Session) (st : ClientState) (ds : List Msg)
    (h : 2 ≤ ds.length) :
    (sendAll s st ds).2.input = st.input ++ (stampList s ds).map some ∧
    (stampList s ds).map (fun d => Msg.get d "id") = (stampIds s ds).map Val.num ∧
    List.Pairwise (fun a b => a < b) (stampIds s ds) ∧
    List.Pairwise (fun a b => a ≠ b) (stampIds s ds) := by
  refine ⟨sendAll_input ds s st, stampList_ids ds s, (stampIds_strict ds s).1, ?_⟩
  exact (stampIds_strict ds s).1.imp (fun hab => Nat.ne_of_lt hab)

/-- Witness for C2 at two sends on a fresh session: ids 1 then 2. -/
theorem sendAll_op_ids_strictly_increasing_witness :
    2 ≤ ([[], []] : List Msg).length ∧
    ((sendAll sessOne stEmpty [[], []]).2.input =
        stEmpty.input ++ (stampList sessOne [[], []]).map some ∧
      (stampList sessOne [[], []]).map (fun d => Msg.get d "id") =
        (stampIds sessOne [[], []]).map Val.num ∧
      List.Pairwise (fun a b => a < b) (stampIds sessOne [[], []]) ∧
      List.Pairwise (fun a b => a ≠ b) (stampIds sessOne [[], []])) :=
  ⟨by decide, sendAll_op_ids_strictly_increasing sessOne stEmpty [[], []] (by decide)⟩

/-- C4: the send loop writes every item enqueued strictly before the
`None` sentinel to the wire, in FIFO order, and nothing enqueued after
the sentinel; without a sentinel it writes every enqueued item in order
and keeps blocking. -/
theorem send_loop_fifo_sentinel (before : List Msg) (after : List (Option Msg)) :
    send_loop (before.map some ++ Option.none :: after) = before ∧
    send_loop (before.map some) = before := by
  refine ⟨?_, send_loop_map_some before⟩
  induction before with
  | nil => rfl
  | cons m rest ih => simp [send_loop, ih]

/-- C7: a second `halt()` leaves every observable of the first intact:
the stop event stays set, the socket is not touched again, the receive
queue is unchanged, and the wire traffic produced by the send loop is
that of a single halt (the extra poison pill sits after the first one
and is never consumed). -/
theorem halt_idempotent (st : ClientState) :
    (Client.halt (Client.halt st)).stopSet = (Client.halt st).stopSet ∧
    (Client.halt (Client.halt st)).socketOpen = (Client.halt st).socketOpen ∧
    (Client.halt (Client.halt st)).output = (Client.halt st).output ∧
    send_loop (Client.halt (Client.halt st)).input = send_loop (Client.halt st).input := by
  refine ⟨rfl, rfl, rfl, ?_⟩
  show send_loop ((st.input ++ [Option.none]) ++ [Option.none]) =
    send_loop (st.input ++ [Option.none])
  rw [List.append_assoc]
  exact send_loop_after_none st.input [Option.none] []

/-- C3: under dispatch, the handler table and the denouncement table for
an operation id change only when the response's session is registered
and its status is exactly `[done]`, in which case both entries for that
id are popped; a done response for an id with no remaining entry leaves
the tables untouched (late or duplicate done notices are a no-op for the
operation's lifecycle state). -/
theorem handle_done_removes_entries (st : ClientState) (r : Msg) :
    ((Client.handle st r).1.handlers =
      if (Registry.get_by_id st.registry (Msg.get r "session")).isSome
          ∧ Msg.get r "status" = Val.list ["done"]
      then popT st.handlers (Msg.get r "id") else st.handlers) ∧
    ((Client.handle st r).1.errors =
      if (Registry.get_by_id st.registry (Msg.get r "session")).isSome
          ∧ Msg.get r "status" = Val.list ["done"]
      then popT st.errors (Msg.get r "id") else st.errors) ∧
    (lookupT st.handlers (Msg.get r "id") = Option.none →
      (Client.handle st r).1.handlers = st.handlers) ∧
    (lookupT st.errors (Msg.get r "id") = Option.none →
      (Client.handle st r).1.errors = st.errors) := by
  refine ⟨Client.handle_handlers st r, Client.handle_errors st r, ?_, ?_⟩
  · intro h
    rw [Client.handle_handlers st r]
    split
    · exact popT_of_lookupT_none _ _ h
    · rfl
  · intro h
    rw [Client.handle_errors st r]
    split
    · exact popT_of_lookupT_none _ _ h
    · rfl

/-- Witness for C3: a done response on a registered session empties the
pending tables, and a duplicate done for the same id afterwards changes
neither table. -/
theorem handle_done_removes_entries_witness :
    ((Client.handle stTables respDone).1.handlers = [] ∧
      (Client.handle stTables respDone).1.errors = []) ∧
    (lookupT stNoTables.handlers (Msg.get respDone "id") = Option.none ∧
      (Client.handle stNoTables respDone).1.handlers = stNoTables.handlers ∧
      (Client.handle stNoTables respDone).1.errors = stNoTables.errors) := by
  refine ⟨⟨?_, ?_⟩, rfl, ?_, ?_⟩
  · exact ((handle_done_removes_entries stTables respDone).1).trans (by decide)
  · exact ((handle_done_removes_entries stTables respDone).2.1).trans (by decide)
  · exact (handle_done_removes_entries stNoTables respDone).2.2.1 rfl
  · exact (handle_done_removes_entries stNoTables respDone).2.2.2 rfl

/-- C9: when a done response reaches a registered session and the
registered handler raises, the `finally` block still pops the handler
and the denouncement for that operation id, and the exception then
propagates to `handle`'s caller. -/
theorem handle_finally_cleanup_on_raise (st : ClientState) (r : Msg) (e : String)
    (hreg : (Registry.get_by_id st.registry (Msg.get r "session")).isSome)
    (hh : lookupT st.handlers (Msg.get r "id") = some (Handler.custom (some e)))
    (hdone : Msg.get r "status" = Val.list ["done"]) :
    (Client.handle st r).2 = Except.error e ∧
    (Client.handle st r).1.handlers = popT st.handlers (Msg.get r "id") ∧
    (Client.handle st r).1.errors = popT st.errors (Msg.get r "id") ∧
    lookupT (Client.handle st r).1.handlers (Msg.get r "id") = Option.none := by
  obtain ⟨sess, hs⟩ := Option.isSome_iff_exists.mp hreg
  have h2 : (Client.handle st r).2 = Except.error e := by
    unfold Client.handle
    simp [hs, hh, runHandler]
  refine ⟨h2, ?_, ?_, ?_⟩
  · rw [Client.handle_handlers st r, if_pos ⟨hreg, hdone⟩]
  · rw [Client.handle_errors st r, if_pos ⟨hreg, hdone⟩]
  · rw [Client.handle_handlers st r, if_pos ⟨hreg, hdone⟩]
    exact lookupT_popT_self _ _

/-- Witness for C9: the handler for operation 1 raises `boom`; the entry
and the denouncement are removed anyway and the error is returned. -/
theorem handle_finally_cleanup_on_raise_witness :
    ((Registry.get_by_id stRaise.registry (Msg.get respDone "session")).isSome ∧
      lookupT stRaise.handlers (Msg.get respDone "id") =
        some (Handler.custom (some "boom")) ∧
      Msg.get respDone "status" = Val.list ["done"]) ∧
    ((Client.handle stRaise respDone).2 = Except.error "boom" ∧
      (Client.handle stRaise respDone).1.handlers =
        popT stRaise.handlers (Msg.get respDone "id") ∧
      (Client.handle stRaise respDone).1.errors =
        popT stRaise.errors (Msg.get respDone "id") ∧
      lookupT (Client.handle stRaise respDone).1.handlers (Msg.get respDone "id") =
        Option.none) :=
  ⟨⟨by decide, by decide, by decide⟩,
   handle_finally_cleanup_on_raise stRaise respDone "boom" (by decide) (by decide) (by decide)⟩

/-- C6: `clone_session` enqueues exactly the bare clone operation (which
carries neither a `session` nor an `id` key), consumes exactly one value
from the generic receive queue, and returns a fresh session whose id is
that value's `new-session` field. -/
theorem clone_session_spec (st : ClientState) (m : Msg) (rest : List (Option Msg))
    (h : st.output = some m :: rest) :
    Client.clone_session st =
      CloneResult.ok
        { st with input := st.input ++ [some [("op", Val.str "clone")]], output := rest }
        { id := Msg.get m "new-session", opCount := 0 } ∧
    Msg.get [("op", Val.str "clone")] "session" = Val.none ∧
    Msg.get [("op", Val.str "clone")] "id" = Val.none := by
  refine ⟨?_, rfl, rfl⟩
  unfold Client.clone_session
  simp [h]

/-- Witness for C6: a remote answering the clone with
`{'new-session': 'abc123'}` yields a session with id `abc123`. -/
theorem clone_session_spec_witness :
    ({ stEmpty with output := [some [("new-session", Val.str "abc123")]] } : ClientState).output
        = some [("new-session", Val.str "abc123")] :: [] ∧
    Client.clone_session { stEmpty with output := [some [("new-session", Val.str "abc123")]] } =
      CloneResult.ok
        { stEmpty with input := [some [("op", Val.str "clone")]], output := [] }
        { id := Val.str "abc123", opCount := 0 } := by
  refine ⟨rfl, ?_⟩
  rw [(clone_session_spec { stEmpty with output := [some [("new-session", Val.str "abc123")]] }
    [("new-session", Val.str "abc123")] [] rfl).1]
  decide

/-- C5: whenever the receive loop exits — stop flag seen, read error, or
a handler exception — it appends everything it dispatched to the generic
queue as plain messages followed by exactly one `None` sentinel, its
effect log ends with pushing that sentinel and then disconnecting, in
that order, and the socket ends up closed. -/
theorem recv_loop_exit_sentinel_disconnect (st : ClientState) (evs : List RecvEvent)
    (st2 : ClientState) (log : List Effect)
    (h : recv_loop st evs = some (st2, log)) :
    (∃ ms : List Msg, st2.output = st.output ++ ms.map some ++ [Option.none]) ∧
    (∃ body, log = body ++ [Effect.putOutput Option.none, Effect.disconnected] ∧
      ∀ e ∈ body, ∃ r, e = Effect.handled r) ∧
    st2.socketOpen = false := by
  unfold recv_loop at h
  rcases Option.map_eq_some'.mp h with ⟨q, hq, hpair⟩
  obtain ⟨⟨ms, hms⟩, hlog, _⟩ := recv_body_spec evs st q.1 q.2 hq
  injection hpair with h1 h2
  subst h1
  subst h2
  exact ⟨⟨ms, by simp [hms]⟩, ⟨q.2, rfl, hlog⟩, rfl⟩

/-- Witness for C5 on the trace that observes the stop flag at once. -/
theorem recv_loop_exit_sentinel_disconnect_witness :
    recv_loop stEmpty [RecvEvent.stop] =
      some ({ stEmpty with output := [Option.none], socketOpen := false },
        [Effect.putOutput Option.none, Effect.disconnected]) ∧
    ((∃ ms : List Msg,
        ({ stEmpty with output := [Option.none], socketOpen := false} : ClientState).output =
          stEmpty.output ++ ms.map some ++ [Option.none]) ∧
      (∃ body, ([Effect.putOutput Option.none, Effect.disconnected] : List Effect) =
          body ++ [Effect.putOutput Option.none, Effect.disconnected] ∧
        ∀ e ∈ body, ∃ r, e = Effect.handled r) ∧
      ({ stEmpty with output := [Option.none], socketOpen := false} : ClientState).socketOpen
        = false) :=
  ⟨rfl, recv_loop_exit_sentinel_disconnect stEmpty [RecvEvent.stop] _ _ rfl⟩

/-- The client state at the end of the session-closed dispatch run. -/
def stClosedFin : ClientState :=
  { stEmpty with output := [some respClosed, some respNext, Option.none], socketOpen := false }

/-- Counterexample to C1: a response whose status holds both `done` and
`session-closed` is nevertheless dispatched — `recv_loop` hands it to
`handle`, which places it on the generic receive queue — and the loop
does not terminate there: it reads and dispatches the next response
before exiting on the stop flag. -/
theorem recv_loop_session_closed_dispatched_cex :
    statusDoneSessionClosed respClosed = true ∧
    recv_loop stEmpty [RecvEvent.read respClosed, RecvEvent.read respNext, RecvEvent.stop] =
      some (stClosedFin,
        [Effect.handled respClosed, Effect.handled respNext,
          Effect.putOutput Option.none, Effect.disconnected]) ∧
    some respClosed ∈ stClosedFin.output := by
  refine ⟨rfl, by decide, by decide⟩

/-- C1 as amended: the receive loop gives a `done`+`session-closed`
response no special treatment — it dispatches it through `handle` like
any other response and then continues with the rest of the trace; the
loop exits only on the stop flag, a read error, or a handler
exception. -/
theorem recv_loop_read_uniform (st : ClientState) (r : Msg) (rest : List RecvEvent)
    (hstatus : statusDoneSessionClosed r = true)
    (hok : (Client.handle st r).2 = Except.ok ()) :
    recv_loop st (RecvEvent.read r :: rest) =
      (recv_loop (Client.handle st r).1 rest).map
        (fun q => (q.1, Effect.handled r :: q.2)) := by
  have hbody : recv_body st (RecvEvent.read r :: rest) =
      (recv_body (Client.handle st r).1 rest).map (fun q => (q.1, Effect.handled r :: q.2)) := by
    simp only [recv_body, hok]
  unfold recv_loop
  rw [hbody]
  cases hrb : recv_body (Client.handle st r).1 rest with
  | none => rfl
  | some q => simp

/-- Witness for the amended C1: the session-closed acknowledgment is
dispatched and the loop continues to the stop observation. -/
theorem recv_loop_read_uniform_witness :
    statusDoneSessionClosed respClosed = true ∧
    (Client.handle stEmpty respClosed).2 = Except.ok () ∧
    recv_loop stEmpty [RecvEvent.read respClosed, RecvEvent.stop] =
      (recv_loop (Client.handle stEmpty respClosed).1 [RecvEvent.stop]).map
        (fun q => (q.1, Effect.handled respClosed :: q.2)) :=
  ⟨rfl, rfl, recv_loop_read_uniform stEmpty respClosed [RecvEvent.stop] rfl rfl⟩
